import Mathlib

/-!
Verification of the path-synthesis engine of the QuantSynth studio.

The definitions below are a shallow embedding of the quantitative core:
the type declarations (ModelType, AssetClass, SynthesisParameters, DataPoint,
SynthesisResult), the numeric helpers of services/mathUtils.ts (CND,
normalPDF, calculateBS, calculateBlackSwaption, calculateSummary,
getStandardNormal) and the path generator generateSynthesizedData of
services/synthesisEngine (bundled at the end of components/ModelControls.tsx).

Modelling conventions:
  * JavaScript numbers are modelled as real numbers.
  * Optional interface fields are modelled as Option values; the defaults
    applied by the destructuring at the top of generateSynthesizedData are
    the getD defaults of the xD accessors below.
  * The ambient random source (Math.random feeding getStandardNormal) is
    modelled as an explicit per-step record of draws (StepRand): the two
    standard-normal shocks drawn each iteration, the uniform used for the
    jump test and the normal used for the jump size.  The generator takes
    the stream of draws as an explicit argument.
  * Calendar dates are modelled as day offsets from the run start
    (startDate.getDate() + i followed by formatting in the source).
-/

namespace QuantSynth

noncomputable section

/-- The six process models of types.ts. -/
inductive ModelType where
  | EQUITY_GBM
  | EQUITY_MERTON_JUMP
  | INTEREST_RATE_VASICEK
  | INTEREST_RATE_CIR
  | MACRO_INFLATION
  | OU_PROCESS
deriving DecidableEq

/-- The fourteen asset classes of types.ts. -/
inductive AssetClass where
  | EQUITY
  | FIXED_INCOME
  | FX
  | COMMODITY
  | FORWARD
  | FUTURE
  | OPTION
  | SWAP
  | SWAPTION
  | CENTRAL_BANK_RATE
  | INFLATION_RATE
  | UNEMPLOYMENT_RATE
  | TOTAL_PRODUCTIVITY
  | GDP_GROWTH
deriving DecidableEq

/-- The five sensitivities returned by the analytic pricers. -/
structure Greeks where
  delta : ℝ
  gamma : ℝ
  vega : ℝ
  theta : ℝ
  rho : ℝ

/-- Return value of calculateBS and calculateBlackSwaption. -/
structure BSResult where
  price : ℝ
  greeks : Greeks

/-- The named correlation factors of types.ts (all fields optional). -/
structure CorrelationFactors where
  equity : Option ℝ
  rates : Option ℝ
  volatility : Option ℝ
  commodity : Option ℝ

/-- The empty correlation record, the destructuring default. -/
def CorrelationFactors.empty : CorrelationFactors :=
  { equity := none, rates := none, volatility := none, commodity := none }

/-- Whether Object.keys of the record is nonempty. -/
def CorrelationFactors.hasAny (c : CorrelationFactors) : Bool :=
  c.equity.isSome || c.rates.isSome || c.volatility.isSome || c.commodity.isSome

/-- The reduce over Object.keys summing the coefficients (a missing or
undefined coefficient contributes 0, matching the or-zero in the source). -/
def CorrelationFactors.sumFactors (c : CorrelationFactors) : ℝ :=
  c.equity.getD 0 + c.rates.getD 0 + c.volatility.getD 0 + c.commodity.getD 0

/-- SynthesisParameters of types.ts; optional fields are Option valued. -/
structure SynthesisParameters where
  modelType : ModelType
  assetClass : AssetClass
  initialValue : ℝ
  timeHorizon : ℕ
  dt : ℝ
  mu : Option ℝ
  sigma : Option ℝ
  kappa : Option ℝ
  theta : Option ℝ
  correlations : Option CorrelationFactors
  dividendYield : Option ℝ
  peRatio : Option ℝ
  expectedEarnings : Option ℝ
  foreignRate : Option ℝ
  domesticRate : Option ℝ
  convenienceYield : Option ℝ
  storageCost : Option ℝ
  seasonalAmplitude : Option ℝ
  creditSpread : Option ℝ
  cdsSpread : Option ℝ
  baseRate : Option ℝ
  strikePrice : Option ℝ
  riskFreeRate : Option ℝ
  expiryTime : Option ℝ
  isCall : Option Bool
  impliedVol : Option ℝ
  lambda : Option ℝ
  jumpMu : Option ℝ
  jumpSigma : Option ℝ

namespace SynthesisParameters

/-- Destructuring default: mu = 0.05. -/
def muD (p : SynthesisParameters) : ℝ := p.mu.getD 0.05

/-- Destructuring default: sigma = 0.2. -/
def sigmaD (p : SynthesisParameters) : ℝ := p.sigma.getD 0.2

/-- Destructuring default: kappa = 2.0. -/
def kappaD (p : SynthesisParameters) : ℝ := p.kappa.getD 2.0

/-- Destructuring default: theta = 0.05. -/
def thetaD (p : SynthesisParameters) : ℝ := p.theta.getD 0.05

/-- Destructuring default: lambda = 0. -/
def lambdaD (p : SynthesisParameters) : ℝ := p.lambda.getD 0

/-- Destructuring default: jumpMu = 0. -/
def jumpMuD (p : SynthesisParameters) : ℝ := p.jumpMu.getD 0

/-- Destructuring default: jumpSigma = 0. -/
def jumpSigmaD (p : SynthesisParameters) : ℝ := p.jumpSigma.getD 0

/-- Destructuring default: dividendYield = 0. -/
def dividendYieldD (p : SynthesisParameters) : ℝ := p.dividendYield.getD 0

/-- Destructuring default: expectedEarnings = 5.0. -/
def expectedEarningsD (p : SynthesisParameters) : ℝ := p.expectedEarnings.getD 5.0

/-- Destructuring default: foreignRate = 0. -/
def foreignRateD (p : SynthesisParameters) : ℝ := p.foreignRate.getD 0

/-- Destructuring default: domesticRate = 0. -/
def domesticRateD (p : SynthesisParameters) : ℝ := p.domesticRate.getD 0

/-- Destructuring default: convenienceYield = 0. -/
def convenienceYieldD (p : SynthesisParameters) : ℝ := p.convenienceYield.getD 0

/-- Destructuring default: storageCost = 0. -/
def storageCostD (p : SynthesisParameters) : ℝ := p.storageCost.getD 0

/-- Destructuring default: seasonalAmplitude = 0. -/
def seasonalAmplitudeD (p : SynthesisParameters) : ℝ := p.seasonalAmplitude.getD 0

/-- Destructuring default: creditSpread = 0.01. -/
def creditSpreadD (p : SynthesisParameters) : ℝ := p.creditSpread.getD 0.01

/-- Destructuring default: cdsSpread = 0. -/
def cdsSpreadD (p : SynthesisParameters) : ℝ := p.cdsSpread.getD 0

/-- Destructuring default: strikePrice = 100. -/
def strikePriceD (p : SynthesisParameters) : ℝ := p.strikePrice.getD 100

/-- Destructuring default: riskFreeRate = 0.03. -/
def riskFreeRateD (p : SynthesisParameters) : ℝ := p.riskFreeRate.getD 0.03

/-- Destructuring default: expiryTime = 1.0. -/
def expiryTimeD (p : SynthesisParameters) : ℝ := p.expiryTime.getD 1.0

/-- Destructuring default: isCall = true. -/
def isCallD (p : SynthesisParameters) : Bool := p.isCall.getD true

/-- Destructuring default: impliedVol = 0.2. -/
def impliedVolD (p : SynthesisParameters) : ℝ := p.impliedVol.getD 0.2

/-- Destructuring default: correlations = the empty record. -/
def correlationsD (p : SynthesisParameters) : CorrelationFactors :=
  p.correlations.getD CorrelationFactors.empty

end SynthesisParameters

/-- One row of the produced path (DataPoint of types.ts).  The timestamp is
the day offset of the point: run start day plus the step index. -/
structure DataPoint where
  index : ℕ
  timestamp : ℕ
  value : ℝ
  underlyingValue : ℝ
  secondaryValue : Option ℝ
  peRatio : Option ℝ
  expectedEarnings : Option ℝ
  benchmarkValue : ℝ
  greeks : Option Greeks

/-- Path summary statistics returned by calculateSummary. -/
structure SummaryStats where
  max : ℝ
  min : ℝ
  avg : ℝ
  vol : ℝ

/-- SynthesisResult of types.ts. -/
structure SynthesisResult where
  parameters : SynthesisParameters
  data : List DataPoint
  summary : SummaryStats

/-- calculateSummary of mathUtils.ts: sum by reduce, arithmetic mean,
elementwise min and max, population variance around the mean, and the
volatility as its square root.  (On the empty list the source divides by
zero and folds min and max over no elements; the generator below always
passes a nonempty list.) -/
def calculateSummary (data : List ℝ) : SummaryStats :=
  let sum := data.foldl (· + ·) (0 : ℝ)
  let avg := sum / data.length
  let mn := match data with
    | [] => 0
    | x :: xs => xs.foldl min x
  let mx := match data with
    | [] => 0
    | x :: xs => xs.foldl max x
  let variance := (data.foldl (fun a b => a + (b - avg) ^ 2) (0 : ℝ)) / data.length
  { max := mx, min := mn, avg := avg, vol := Real.sqrt variance }

/-- getStandardNormal of mathUtils.ts (Box-Muller transform) as a function
of the two uniform draws it consumes; the redraw-on-zero loops of the
source are represented by the generator being handed nonzero uniforms. -/
def getStandardNormal (u v : ℝ) : ℝ :=
  Real.sqrt (-2.0 * Real.log u) * Real.cos (2.0 * Real.pi * v)

/-- The body w of the CND rational-polynomial approximation in
mathUtils.ts, computed from L = the absolute value of the argument; the
sign branch of the source is applied in CND below. -/
def cndPoly (x : ℝ) : ℝ :=
  let a1 : ℝ := 0.31938153
  let a2 : ℝ := -0.356563782
  let a3 : ℝ := 1.781477937
  let a4 : ℝ := -1.821255978
  let a5 : ℝ := 1.330274429
  let L := |x|
  let K := 1.0 / (1.0 + 0.2316419 * L)
  1.0 - 1.0 / Real.sqrt (2.0 * Real.pi) * Real.exp (-L * L / 2.0) *
    (a1 * K + a2 * K * K + a3 * K ^ 3 + a4 * K ^ 4 + a5 * K ^ 5)

/-- CND of mathUtils.ts: standard normal cumulative distribution function
approximation; for a negative argument the source flips w to 1 - w. -/
def CND (x : ℝ) : ℝ :=
  if x < 0 then 1.0 - cndPoly x else cndPoly x

/-- normalPDF of mathUtils.ts. -/
def normalPDF (x : ℝ) : ℝ :=
  (1 / Real.sqrt (2 * Real.pi)) * Real.exp (-0.5 * x * x)

/-- calculateBS of mathUtils.ts: Black-Scholes price and Greeks, with the
degenerate branch for nonpositive time to expiry. -/
def calculateBS (S K T r sigma : ℝ) (isCall : Bool) : BSResult :=
  if T ≤ 0 then
    { price := max 0 (if isCall then S - K else K - S)
      greeks :=
        { delta := if isCall then (if K < S then 1 else 0) else (if S < K then -1 else 0)
          gamma := 0, vega := 0, theta := 0, rho := 0 } }
  else
    let d1 := (Real.log (S / K) + (r + sigma * sigma / 2.0) * T) / (sigma * Real.sqrt T)
    let d2 := d1 - sigma * Real.sqrt T
    let price := if isCall then S * CND d1 - K * Real.exp (-r * T) * CND d2
      else K * Real.exp (-r * T) * CND (-d2) - S * CND (-d1)
    let delta := if isCall then CND d1 else CND d1 - 1
    let gamma := normalPDF d1 / (S * sigma * Real.sqrt T)
    let vega := S * normalPDF d1 * Real.sqrt T
    let theta := if isCall then
        -(S * normalPDF d1 * sigma) / (2 * Real.sqrt T) - r * K * Real.exp (-r * T) * CND d2
      else
        -(S * normalPDF d1 * sigma) / (2 * Real.sqrt T) + r * K * Real.exp (-r * T) * CND (-d2)
    let rho := if isCall then K * T * Real.exp (-r * T) * CND d2
      else -(K * T * Real.exp (-r * T) * CND (-d2))
    { price := price
      greeks := { delta := delta, gamma := gamma, vega := vega, theta := theta, rho := rho } }

/-- calculateBlackSwaption of mathUtils.ts: Black model for swaptions with
the simplified five-year annuity factor and the duration proxy for rho. -/
def calculateBlackSwaption (F K T r sigma : ℝ) (isPayer : Bool) : BSResult :=
  if T ≤ 0 then
    { price := max 0 (if isPayer then F - K else K - F)
      greeks :=
        { delta := if isPayer then (if K < F then 1 else 0) else (if F < K then -1 else 0)
          gamma := 0, vega := 0, theta := 0, rho := 0 } }
  else
    let d1 := (Real.log (F / K) + (sigma * sigma / 2.0) * T) / (sigma * Real.sqrt T)
    let d2 := d1 - sigma * Real.sqrt T
    let annuity := (1 - Real.exp (-r * 5)) / r
    let price := annuity * Real.exp (-r * T) *
      (if isPayer then F * CND d1 - K * CND d2 else K * CND (-d2) - F * CND (-d1))
    let delta := if isPayer then Real.exp (-r * T) * CND d1
      else -(Real.exp (-r * T)) * CND (-d1)
    let gamma := Real.exp (-r * T) * normalPDF d1 / (F * sigma * Real.sqrt T)
    let vega := annuity * Real.exp (-r * T) * F * normalPDF d1 * Real.sqrt T
    let theta := -(annuity * Real.exp (-r * T) * F * normalPDF d1 * sigma) / (2 * Real.sqrt T)
    let rho := -T * price
    { price := price
      greeks := { delta := delta, gamma := gamma, vega := vega, theta := theta, rho := rho } }

/-- The volatility used for derivative pricing: impliedVol or-else sigma
(JavaScript or on numbers: the right operand when the left is zero),
after the destructuring defaults. -/
def pricingVol (p : SynthesisParameters) : ℝ :=
  if p.impliedVolD = 0 then p.sigmaD else p.impliedVolD

/-- The effective drift computed once per run from the asset class
(the if-chain over assetClass in generateSynthesizedData). -/
def effectiveMu (p : SynthesisParameters) : ℝ :=
  match p.assetClass with
  | .EQUITY => p.muD - p.dividendYieldD
  | .FX => p.muD + (p.domesticRateD - p.foreignRateD)
  | .COMMODITY => p.muD + (p.storageCostD - p.convenienceYieldD)
  | .FORWARD => p.riskFreeRateD - p.dividendYieldD
  | .FUTURE => p.riskFreeRateD - p.dividendYieldD
  | .UNEMPLOYMENT_RATE => 0
  | _ => p.muD

/-- The aggregated correlation coefficient computed once per run: when the
correlation record has at least one key, the sum of its coefficients
clamped by max and min to the interval from -1 to 1; otherwise 0. -/
def rho (p : SynthesisParameters) : ℝ :=
  let c := p.correlationsD
  if c.hasAny then max (-1) (min 1 c.sumFactors) else 0

/-- The random draws one loop iteration can consume: the market and
idiosyncratic standard-normal shocks, the uniform compared against
lambda times dt for the jump test, and the jump-size normal. -/
structure StepRand where
  market : ℝ
  idio : ℝ
  jumpU : ℝ
  jumpZ : ℝ

/-- The correlation-coupling formula of the generator. -/
def coupledShock (r zm zi : ℝ) : ℝ :=
  r * zm + Real.sqrt (1 - r * r) * zi

/-- Mutable loop state of the generator: the primary underlying level and
the market proxy level. -/
structure PathState where
  currentSpot : ℝ
  marketProxy : ℝ

/-- Fixed drift of the market proxy. -/
def marketMu : ℝ := 0.06

/-- Fixed volatility of the market proxy. -/
def marketSigma : ℝ := 0.15

/-- One update of the primary underlying level: the switch over the model
type at the bottom of the generator loop. -/
def stepSpot (p : SynthesisParameters) (effMu : ℝ) (r : StepRand)
    (assetEpsilon : ℝ) (spot : ℝ) : ℝ :=
  match p.modelType with
  | .EQUITY_GBM =>
      spot * Real.exp ((effMu - 0.5 * p.sigmaD ^ 2) * p.dt
        + p.sigmaD * Real.sqrt p.dt * assetEpsilon)
  | .EQUITY_MERTON_JUMP =>
      let jumpFactor := if r.jumpU < p.lambdaD * p.dt
        then Real.exp (p.jumpMuD + p.jumpSigmaD * r.jumpZ) else 1.0
      spot * Real.exp ((effMu - 0.5 * p.sigmaD ^ 2) * p.dt
        + p.sigmaD * Real.sqrt p.dt * assetEpsilon) * jumpFactor
  | .INTEREST_RATE_VASICEK =>
      spot + p.kappaD * (p.thetaD - spot) * p.dt
        + p.sigmaD * Real.sqrt p.dt * assetEpsilon
  | .INTEREST_RATE_CIR =>
      let currentLevel := max spot 0.0001
      currentLevel + p.kappaD * (p.thetaD - currentLevel) * p.dt
        + p.sigmaD * Real.sqrt currentLevel * Real.sqrt p.dt * assetEpsilon
  | .MACRO_INFLATION =>
      spot + effMu * p.dt + p.kappaD * (p.thetaD - spot) * p.dt
        + p.sigmaD * Real.sqrt p.dt * assetEpsilon
  | .OU_PROCESS =>
      spot + effMu * p.dt + p.kappaD * (p.thetaD - spot) * p.dt
        + p.sigmaD * Real.sqrt p.dt * assetEpsilon

/-- One iteration of the generator loop acting on the state: couple the
two shocks, advance the market proxy by its fixed-parameter lognormal
step, and advance the underlying by the selected model. -/
def stepState (p : SynthesisParameters) (effMu rhoRun : ℝ) (r : StepRand)
    (s : PathState) : PathState :=
  let assetEpsilon := coupledShock rhoRun r.market r.idio
  { currentSpot := stepSpot p effMu r assetEpsilon s.currentSpot
    marketProxy := s.marketProxy * Real.exp ((marketMu - 0.5 * marketSigma ^ 2) * p.dt
      + marketSigma * Real.sqrt p.dt * r.market) }

/-- The loop state before iteration i: both levels start at the initial
value; each iteration applies stepState with the draws of that step. -/
def pathState (p : SynthesisParameters) (e : ℕ → StepRand) : ℕ → PathState
  | 0 => { currentSpot := p.initialValue, marketProxy := p.initialValue }
  | i + 1 => stepState p (effectiveMu p) (rho p) (e i) (pathState p e i)

/-- Time to expiry used at step i, floored at 0.0001. -/
def Tmat (p : SynthesisParameters) (i : ℕ) : ℝ :=
  max 0.0001 (p.expiryTimeD - (i : ℝ) / 365)

/-- Deterministic seasonal shift at step i, applied only for the
seasonally-shifted asset classes with positive amplitude. -/
def seasonalShift (p : SynthesisParameters) (i : ℕ) : ℝ :=
  if (p.assetClass = .COMMODITY ∨ p.assetClass = .INFLATION_RATE
      ∨ p.assetClass = .GDP_GROWTH) ∧ 0 < p.seasonalAmplitudeD
  then Real.sin (2 * Real.pi * (i : ℝ) / 252) * p.seasonalAmplitudeD
  else 0

/-- The Path Point pushed at iteration i: the default displayed value is
the spot plus the seasonal shift, then the domain-specific branch
overrides the displayed value and the optional fields. -/
def mkDataPoint (p : SynthesisParameters) (startDay i : ℕ) (s : PathState) : DataPoint :=
  let spot := s.currentSpot
  let T := Tmat p i
  let shift := seasonalShift p i
  let bp : DataPoint :=
    { index := i
      timestamp := startDay + i
      value := spot + shift
      underlyingValue := spot
      secondaryValue := none
      peRatio := none
      expectedEarnings := none
      benchmarkValue := s.marketProxy
      greeks := none }
  match p.assetClass with
  | .FIXED_INCOME =>
      { bp with value := p.riskFreeRateD + p.creditSpreadD + p.cdsSpreadD + spot
                secondaryValue := some p.cdsSpreadD }
  | .OPTION =>
      let bs := calculateBS spot p.strikePriceD T p.riskFreeRateD (pricingVol p) p.isCallD
      { bp with value := bs.price
                greeks := some bs.greeks
                secondaryValue := some p.strikePriceD }
  | .FORWARD =>
      { bp with value := spot * Real.exp ((p.riskFreeRateD - p.dividendYieldD) * T)
                secondaryValue := some spot }
  | .FUTURE =>
      { bp with value := spot * Real.exp ((p.riskFreeRateD - p.dividendYieldD) * T)
                secondaryValue := some spot }
  | .SWAP =>
      let k := p.strikePriceD / 1000
      { bp with value := (spot - (if k = 0 then 0.03 else k)) * 10000
                secondaryValue := some p.strikePriceD }
  | .SWAPTION =>
      let k := p.strikePriceD / 1000
      let black := calculateBlackSwaption spot (if k = 0 then 0.03 else k) T
        p.riskFreeRateD (pricingVol p) p.isCallD
      { bp with value := black.price
                greeks := some black.greeks
                secondaryValue := some p.strikePriceD }
  | .UNEMPLOYMENT_RATE =>
      { bp with value := max 2.0 (spot + shift) }
  | .INFLATION_RATE =>
      { bp with value := spot + shift }
  | .EQUITY =>
      let pointEarnings := p.expectedEarningsD * Real.exp (0.03 * ((i : ℝ) / 252))
      { bp with peRatio := some ((spot + shift) / pointEarnings)
                expectedEarnings := some pointEarnings }
  | _ => bp

/-- generateSynthesizedData of the synthesis engine: iterate the loop for
indices 0 through timeHorizon, pushing one Path Point per iteration, then
compute the summary statistics over the displayed values.  The run start
date is modelled as the day offset startDay and the ambient random source
as the explicit draw stream e. -/
def generateSynthesizedData (p : SynthesisParameters) (startDay : ℕ)
    (e : ℕ → StepRand) : SynthesisResult :=
  let data := (List.range (p.timeHorizon + 1)).map
    (fun i => mkDataPoint p startDay i (pathState p e i))
  { parameters := p
    data := data
    summary := calculateSummary (data.map DataPoint.value) }

/-- The d1 quantity of the Black-Scholes formula, the first let binding of
the positive-expiry branch of calculateBS. -/
def d1BS (S K T r sigma : ℝ) : ℝ :=
  (Real.log (S / K) + (r + sigma * sigma / 2.0) * T) / (sigma * Real.sqrt T)

/-- The d2 quantity of the Black-Scholes formula. -/
def d2BS (S K T r sigma : ℝ) : ℝ :=
  d1BS S K T r sigma - sigma * Real.sqrt T

/-- The effective drift as the specification words it, written as a second
definition for comparison with effectiveMu: equities subtract dividend
yield from drift; FX adds the domestic-minus-foreign rate differential;
commodities add storage cost minus convenience yield; forwards and futures
replace drift entirely with risk-free rate minus dividend yield;
unemployment-rate factors zero the drift; all other asset classes use the
raw drift unmodified. -/
def driftSpec (p : SynthesisParameters) : ℝ :=
  match p.assetClass with
  | .EQUITY => p.muD - p.dividendYieldD
  | .FX => p.muD + (p.domesticRateD - p.foreignRateD)
  | .COMMODITY => p.muD + (p.storageCostD - p.convenienceYieldD)
  | .FORWARD | .FUTURE => p.riskFreeRateD - p.dividendYieldD
  | .UNEMPLOYMENT_RATE => 0
  | _ => p.muD

/-- A parameter record with every optional field absent. -/
def mkParams (m : ModelType) (a : AssetClass) (init : ℝ) (h : ℕ) (dtv : ℝ) :
    SynthesisParameters :=
  { modelType := m, assetClass := a, initialValue := init, timeHorizon := h, dt := dtv
    mu := none, sigma := none, kappa := none, theta := none, correlations := none
    dividendYield := none, peRatio := none, expectedEarnings := none, foreignRate := none
    domesticRate := none, convenienceYield := none, storageCost := none
    seasonalAmplitude := none, creditSpread := none, cdsSpread := none, baseRate := none
    strikePrice := none, riskFreeRate := none, expiryTime := none, isCall := none
    impliedVol := none, lambda := none, jumpMu := none, jumpSigma := none }

/-- An all-zero draw stream. -/
def noRand : ℕ → StepRand := fun _ => ⟨0, 0, 0, 0⟩

/-- A draw stream whose idiosyncratic shock is a large negative outlier. -/
def eNegShock : ℕ → StepRand := fun _ => ⟨0, -2, 0, 0⟩

/-- Concrete flat-path scenario: growth model, zero drift, zero volatility. -/
def pFlat : SynthesisParameters :=
  { mkParams .EQUITY_GBM .EQUITY 100 10 (1 / 252) with mu := some 0, sigma := some 0 }

/-- Concrete square-root model run driven into negative territory. -/
def pCIRneg : SynthesisParameters :=
  { mkParams .INTEREST_RATE_CIR .CENTRAL_BANK_RATE 1 1 1 with
    sigma := some 1, kappa := some 0, theta := some 0 }

/-- Concrete square-root model run with dominated diffusion. -/
def pCIRpos : SynthesisParameters :=
  { mkParams .INTEREST_RATE_CIR .CENTRAL_BANK_RATE 1 5 (1 / 2) with
    sigma := some 1, kappa := some 1, theta := some 2 }

/-- Concrete option run with a caller-supplied implied volatility of zero. -/
def pOpt : SynthesisParameters :=
  { mkParams .EQUITY_GBM .OPTION 100 3 (1 / 252) with
    impliedVol := some 0, sigma := some 0.37 }

/-- Concrete equity run used for the path-shape witness. -/
def pPath : SynthesisParameters := mkParams .EQUITY_GBM .EQUITY 100 2 (1 / 252)

/-- Concrete commodity run used for the determinism witness. -/
def pDet : SynthesisParameters := mkParams .OU_PROCESS .COMMODITY 50 10 (1 / 252)

/-- A constant draw stream. -/
def eDetA : ℕ → StepRand := fun _ => ⟨1, 2, 0, 0⟩

/-- A draw stream agreeing with eDetA on the consumed indices only. -/
def eDetB : ℕ → StepRand := fun i => if i < 11 then ⟨1, 2, 0, 0⟩ else ⟨3, 4, 5, 6⟩

end

/-! Helper lemmas about the generator. -/

theorem mkDataPoint_index (p : SynthesisParameters) (d i : ℕ) (s : PathState) :
    (mkDataPoint p d i s).index = i := by
  cases hp : p.assetClass <;> simp [mkDataPoint, hp]

theorem mkDataPoint_timestamp (p : SynthesisParameters) (d i : ℕ) (s : PathState) :
    (mkDataPoint p d i s).timestamp = d + i := by
  cases hp : p.assetClass <;> simp [mkDataPoint, hp]

theorem mkDataPoint_underlying (p : SynthesisParameters) (d i : ℕ) (s : PathState) :
    (mkDataPoint p d i s).underlyingValue = s.currentSpot := by
  cases hp : p.assetClass <;> simp [mkDataPoint, hp]

theorem generate_length (p : SynthesisParameters) (d : ℕ) (e : ℕ → StepRand) :
    (generateSynthesizedData p d e).data.length = p.timeHorizon + 1 := by
  simp [generateSynthesizedData]

theorem generate_getElem (p : SynthesisParameters) (d : ℕ) (e : ℕ → StepRand) (j : ℕ)
    (hj : j < (generateSynthesizedData p d e).data.length) :
    (generateSynthesizedData p d e).data[j] = mkDataPoint p d j (pathState p e j) := by
  have hj2 : j < p.timeHorizon + 1 := by
    simpa using (generate_length p d e) ▸ hj
  simp [generateSynthesizedData]

theorem cndPoly_neg (x : ℝ) : cndPoly (-x) = cndPoly x := by
  simp [cndPoly, abs_neg]

/-- The CND approximation is exactly symmetric around one half at every
nonzero argument, because the negative branch returns one minus the value
of the body at the absolute value. -/
theorem CND_add_CND_neg {x : ℝ} (hx : x ≠ 0) : CND x + CND (-x) = 1 := by
  rcases hx.lt_or_lt with h | h
  · have h2 : ¬(-x < 0) := by linarith
    rw [CND, CND, if_pos h, if_neg h2, cndPoly_neg]
    ring
  · have h2 : ¬(x < 0) := by linarith
    have h3 : -x < 0 := by linarith
    rw [CND, CND, if_neg h2, if_pos h3, cndPoly_neg]
    ring

theorem calculateBS_call_price (S K T r sigma : ℝ) (hT : 0 < T) :
    (calculateBS S K T r sigma true).price =
      S * CND (d1BS S K T r sigma) - K * Real.exp (-r * T) * CND (d2BS S K T r sigma) := by
  rw [calculateBS, if_neg (not_le.mpr hT)]
  rfl

theorem calculateBS_put_price (S K T r sigma : ℝ) (hT : 0 < T) :
    (calculateBS S K T r sigma false).price =
      K * Real.exp (-r * T) * CND (-(d2BS S K T r sigma))
        - S * CND (-(d1BS S K T r sigma)) := by
  rw [calculateBS, if_neg (not_le.mpr hT)]
  rfl

theorem d2BS_eq (S K T r sigma : ℝ) (hT : 0 < T) (hσ : 0 < sigma) :
    d2BS S K T r sigma =
      (Real.log (S / K) + (r - sigma * sigma / 2.0) * T) / (sigma * Real.sqrt T) := by
  have hq2 : Real.sqrt T * Real.sqrt T = T := Real.mul_self_sqrt hT.le
  have hne : (0 : ℝ) < sigma * Real.sqrt T := by positivity
  rw [d2BS, d1BS, eq_div_iff (ne_of_gt hne), sub_mul, div_mul_cancel₀ _ (ne_of_gt hne)]
  linear_combination (-(sigma * sigma)) * hq2

/-! Theorems for the claims. -/

/-- C1: for every parameter set with at least one step, the returned data
sequence has length timeHorizon + 1, the Path Point stored at position j
carries index j (so indices run 0..timeHorizon in insertion order), and
its date is the run start day plus j days. -/
theorem C1_path_shape (p : SynthesisParameters) (startDay : ℕ) (e : ℕ → StepRand)
    (hsteps : 1 ≤ p.timeHorizon) :
    (generateSynthesizedData p startDay e).data.length = p.timeHorizon + 1 ∧
    ∀ j (hj : j < (generateSynthesizedData p startDay e).data.length),
      ((generateSynthesizedData p startDay e).data.get ⟨j, hj⟩).index = j ∧
      ((generateSynthesizedData p startDay e).data.get ⟨j, hj⟩).timestamp = startDay + j := by
  refine ⟨generate_length p startDay e, fun j hj => ?_⟩
  rw [List.get_eq_getElem, generate_getElem]
  exact ⟨mkDataPoint_index p startDay j _, mkDataPoint_timestamp p startDay j _⟩

/-- Witness for C1 at a concrete run of three points starting at day 7. -/
theorem C1_path_shape_witness :
    1 ≤ pPath.timeHorizon ∧ pPath.timeHorizon = 2 ∧
    (generateSynthesizedData pPath 7 noRand).data.length = pPath.timeHorizon + 1 := by
  have h : 1 ≤ pPath.timeHorizon := by norm_num [pPath, mkParams]
  exact ⟨h, by norm_num [pPath, mkParams], (C1_path_shape pPath 7 noRand h).1⟩

/-- Changing only the run start day moves every timestamp and nothing
else in a Path Point. -/
theorem mkDataPoint_startDay (p : SynthesisParameters) (dA dB i : ℕ) (s : PathState) :
    mkDataPoint p dA i s = { mkDataPoint p dB i s with timestamp := dA + i } := by
  cases hp : p.assetClass <;> simp [mkDataPoint, hp]

/-- C4 (amended): one invocation is a pure function of its parameters, the
entropy drawn, and the clock-derived run start date: two runs with
identical parameters whose draw streams agree on every consumed index
return identical results in every field except the timestamps, which
equal the respective start day plus the step index; when the start dates
also coincide the results are identical in every field.  (The source
reads the clock inside the generator, so the start date is an input the
original claim omitted; see the counterexample.) -/
theorem C4_deterministic (p : SynthesisParameters) (dA dB : ℕ)
    (e1 e2 : ℕ → StepRand) (h : ∀ i, i ≤ p.timeHorizon → e1 i = e2 i) :
    (generateSynthesizedData p dA e1).parameters =
      (generateSynthesizedData p dB e2).parameters ∧
    (generateSynthesizedData p dA e1).summary =
      (generateSynthesizedData p dB e2).summary ∧
    (generateSynthesizedData p dA e1).data.length =
      (generateSynthesizedData p dB e2).data.length ∧
    (∀ j (hjA : j < (generateSynthesizedData p dA e1).data.length)
        (hjB : j < (generateSynthesizedData p dB e2).data.length),
      ((generateSynthesizedData p dA e1).data.get ⟨j, hjA⟩).index =
        ((generateSynthesizedData p dB e2).data.get ⟨j, hjB⟩).index ∧
      ((generateSynthesizedData p dA e1).data.get ⟨j, hjA⟩).value =
        ((generateSynthesizedData p dB e2).data.get ⟨j, hjB⟩).value ∧
      ((generateSynthesizedData p dA e1).data.get ⟨j, hjA⟩).underlyingValue =
        ((generateSynthesizedData p dB e2).data.get ⟨j, hjB⟩).underlyingValue ∧
      ((generateSynthesizedData p dA e1).data.get ⟨j, hjA⟩).secondaryValue =
        ((generateSynthesizedData p dB e2).data.get ⟨j, hjB⟩).secondaryValue ∧
      ((generateSynthesizedData p dA e1).data.get ⟨j, hjA⟩).peRatio =
        ((generateSynthesizedData p dB e2).data.get ⟨j, hjB⟩).peRatio ∧
      ((generateSynthesizedData p dA e1).data.get ⟨j, hjA⟩).expectedEarnings =
        ((generateSynthesizedData p dB e2).data.get ⟨j, hjB⟩).expectedEarnings ∧
      ((generateSynthesizedData p dA e1).data.get ⟨j, hjA⟩).benchmarkValue =
        ((generateSynthesizedData p dB e2).data.get ⟨j, hjB⟩).benchmarkValue ∧
      ((generateSynthesizedData p dA e1).data.get ⟨j, hjA⟩).greeks =
        ((generateSynthesizedData p dB e2).data.get ⟨j, hjB⟩).greeks ∧
      ((generateSynthesizedData p dA e1).data.get ⟨j, hjA⟩).timestamp = dA + j ∧
      ((generateSynthesizedData p dB e2).data.get ⟨j, hjB⟩).timestamp = dB + j) ∧
    (dA = dB →
      generateSynthesizedData p dA e1 = generateSynthesizedData p dB e2) := by
  have hstate : ∀ i, i ≤ p.timeHorizon → pathState p e1 i = pathState p e2 i := by
    intro i
    induction i with
    | zero => intro _; rfl
    | succ n ih =>
      intro hn
      have hn1 : n ≤ p.timeHorizon := Nat.le_of_succ_le hn
      simp only [pathState, ih hn1, h n hn1]
  have hpoint : ∀ j, j ≤ p.timeHorizon →
      mkDataPoint p dA j (pathState p e1 j) =
        { mkDataPoint p dB j (pathState p e2 j) with timestamp := dA + j } := by
    intro j hj
    rw [hstate j hj]
    exact mkDataPoint_startDay p dA dB j _
  have hsum0 : ∀ (d : ℕ) (e : ℕ → StepRand), (generateSynthesizedData p d e).summary =
      calculateSummary ((generateSynthesizedData p d e).data.map DataPoint.value) :=
    fun d e => rfl
  refine ⟨rfl, ?_, ?_, ?_, ?_⟩
  · have hvals : (generateSynthesizedData p dA e1).data.map DataPoint.value =
        (generateSynthesizedData p dB e2).data.map DataPoint.value := by
      simp only [generateSynthesizedData, List.map_map]
      refine List.map_congr_left fun i hi => ?_
      have hii : i ≤ p.timeHorizon := Nat.lt_succ_iff.mp (List.mem_range.mp hi)
      simp [Function.comp, hpoint i hii]
    rw [hsum0, hsum0, hvals]
  · rw [generate_length, generate_length]
  · intro j hjA hjB
    have hj : j ≤ p.timeHorizon := by
      rw [generate_length] at hjA
      omega
    rw [List.get_eq_getElem, List.get_eq_getElem, generate_getElem, generate_getElem,
      hpoint j hj]
    simp [mkDataPoint_timestamp]
  · intro hd
    subst hd
    have hdata : (List.range (p.timeHorizon + 1)).map
        (fun i => mkDataPoint p dA i (pathState p e1 i)) =
        (List.range (p.timeHorizon + 1)).map
        (fun i => mkDataPoint p dA i (pathState p e2 i)) := by
      refine List.map_congr_left fun i hi => ?_
      rw [hstate i (Nat.lt_succ_iff.mp (List.mem_range.mp hi))]
    simp only [generateSynthesizedData, hdata]

/-- Witness for C4: two runs started on day 3 and day 9, with draw
streams that agree on the consumed indices and differ beyond them, share
their summary and their first value, while the first timestamps are 3 and
9 respectively. -/
theorem C4_deterministic_witness :
    (generateSynthesizedData pDet 3 eDetA).summary =
      (generateSynthesizedData pDet 9 eDetB).summary ∧
    ((generateSynthesizedData pDet 3 eDetA).data.get
      ⟨0, by rw [generate_length]; norm_num [pDet, mkParams]⟩).value =
      ((generateSynthesizedData pDet 9 eDetB).data.get
        ⟨0, by rw [generate_length]; norm_num [pDet, mkParams]⟩).value ∧
    ((generateSynthesizedData pDet 3 eDetA).data.get
      ⟨0, by rw [generate_length]; norm_num [pDet, mkParams]⟩).timestamp = 3 ∧
    ((generateSynthesizedData pDet 9 eDetB).data.get
      ⟨0, by rw [generate_length]; norm_num [pDet, mkParams]⟩).timestamp = 9 := by
  have hagree : ∀ i, i ≤ pDet.timeHorizon → eDetA i = eDetB i := by
    intro i hi
    rw [show pDet.timeHorizon = 10 from rfl] at hi
    have hi11 : i < 11 := by omega
    simp [eDetA, eDetB, hi11]
  obtain ⟨-, hsum, -, hpts, -⟩ := C4_deterministic pDet 3 9 eDetA eDetB hagree
  have hp := hpts 0 (by rw [generate_length]; norm_num [pDet, mkParams])
    (by rw [generate_length]; norm_num [pDet, mkParams])
  exact ⟨hsum, hp.2.1, hp.2.2.2.2.2.2.2.2.1, hp.2.2.2.2.2.2.2.2.2⟩

/-- Counterexample for C4: the generator reads the clock, so two
invocations with identical parameters and identical draw sequences made
on different days (start day 3 versus 4) return different results: the
first timestamp is 3 in one run and 4 in the other. -/
theorem C4_counterexample :
    generateSynthesizedData pDet 3 eDetA ≠ generateSynthesizedData pDet 4 eDetA ∧
    ((generateSynthesizedData pDet 3 eDetA).data.map DataPoint.timestamp)[0]? = some 3 ∧
    ((generateSynthesizedData pDet 4 eDetA).data.map DataPoint.timestamp)[0]? = some 4 := by
  have h3 : ((generateSynthesizedData pDet 3 eDetA).data.map DataPoint.timestamp)[0]?
      = some 3 := by
    simp [generateSynthesizedData, List.map_map, Function.comp, mkDataPoint_timestamp]
  have h4 : ((generateSynthesizedData pDet 4 eDetA).data.map DataPoint.timestamp)[0]?
      = some 4 := by
    simp [generateSynthesizedData, List.map_map, Function.comp, mkDataPoint_timestamp]
  refine ⟨fun hcontra => ?_, h3, h4⟩
  have hmap := congrArg
    (fun r : SynthesisResult => (r.data.map DataPoint.timestamp)[0]?) hcontra
  dsimp only at hmap
  rw [h3, h4] at hmap
  simp at hmap

/-- C6: the growth model with zero volatility and zero drift (equity class
with no dividend adjustment) produces a flat path: every Path Point value
equals the initial value. -/
theorem C6_flat_path (p : SynthesisParameters) (startDay : ℕ) (e : ℕ → StepRand)
    (hm : p.modelType = .EQUITY_GBM) (ha : p.assetClass = .EQUITY)
    (hmu : p.mu = some 0) (hs : p.sigma = some 0)
    (hd : p.dividendYield.getD 0 = 0) :
    ∀ dp ∈ (generateSynthesizedData p startDay e).data, dp.value = p.initialValue := by
  have heff : effectiveMu p = 0 := by
    simp [effectiveMu, ha, SynthesisParameters.muD, hmu,
      SynthesisParameters.dividendYieldD, hd]
  have hsd : p.sigmaD = 0 := by simp [SynthesisParameters.sigmaD, hs]
  have hspot : ∀ i, (pathState p e i).currentSpot = p.initialValue := by
    intro i
    induction i with
    | zero => rfl
    | succ n ih =>
      simp only [pathState, stepState, stepSpot, hm, heff, hsd, ih]
      norm_num
  intro dp hdp
  obtain ⟨i, _, rfl⟩ := List.mem_map.mp hdp
  have hshift : seasonalShift p i = 0 := by
    simp [seasonalShift, ha]
  simp [mkDataPoint, ha, hshift, hspot i]

/-- Witness for C6: in the concrete scenario with initial value 100, ten
steps and daily step size, the Path Point at position 3 has value 100. -/
theorem C6_flat_path_witness :
    ((generateSynthesizedData pFlat 0 noRand).data.get
      ⟨3, by rw [generate_length]; norm_num [pFlat, mkParams]⟩).value = 100 := by
  have h := C6_flat_path pFlat 0 noRand rfl rfl rfl rfl (by simp [pFlat, mkParams])
  have hmem : (generateSynthesizedData pFlat 0 noRand).data.get
      ⟨3, by rw [generate_length]; norm_num [pFlat, mkParams]⟩ ∈
      (generateSynthesizedData pFlat 0 noRand).data := List.get_mem _ _ _
  rw [h _ hmem]
  norm_num [pFlat, mkParams]

/-- C7: the effective drift is computed once per run (the same value feeds
every loop iteration) and agrees with the asset-class function stated by
the specification (driftSpec). -/
theorem C7_effective_drift (p : SynthesisParameters) :
    effectiveMu p = driftSpec p ∧
    ∀ e i, pathState p e (i + 1) =
      stepState p (effectiveMu p) (rho p) (e i) (pathState p e i) := by
  refine ⟨?_, fun e i => rfl⟩
  cases hp : p.assetClass <;> simp [effectiveMu, driftSpec, hp]

/-- C8: the aggregate correlation coefficient equals the clamped sum of
the named factor coefficients, is 0 when no factors are given, satisfies
0 <= 1 - rho^2 (so the square root in the coupled shock is well defined),
and the same per-run value feeds every loop iteration. -/
theorem C8_rho_clamped (p : SynthesisParameters) :
    rho p = max (-1) (min 1 p.correlationsD.sumFactors) ∧
    (p.correlationsD.hasAny = false → rho p = 0) ∧
    0 ≤ 1 - rho p * rho p ∧
    ∀ e i, pathState p e (i + 1) =
      stepState p (effectiveMu p) (rho p) (e i) (pathState p e i) := by
  have h1 : rho p = max (-1) (min 1 p.correlationsD.sumFactors) := by
    by_cases h : p.correlationsD.hasAny
    · simp [rho, h]
    · have hfields : p.correlationsD.equity = none ∧ p.correlationsD.rates = none ∧
          p.correlationsD.volatility = none ∧ p.correlationsD.commodity = none := by
        rcases hc : p.correlationsD with ⟨oe, orr, ov, oc⟩
        rw [hc] at h
        simp only [CorrelationFactors.hasAny, Bool.or_eq_true, Option.isSome_iff_exists] at h
        push_neg at h
        obtain ⟨⟨⟨he, hr⟩, hv⟩, hcm⟩ := h
        exact ⟨Option.eq_none_iff_forall_not_mem.mpr fun a ha => he a ha,
          Option.eq_none_iff_forall_not_mem.mpr fun a ha => hr a ha,
          Option.eq_none_iff_forall_not_mem.mpr fun a ha => hv a ha,
          Option.eq_none_iff_forall_not_mem.mpr fun a ha => hcm a ha⟩
      obtain ⟨he, hr, hv, hcm⟩ := hfields
      have hsum : p.correlationsD.sumFactors = 0 := by
        simp [CorrelationFactors.sumFactors, he, hr, hv, hcm]
      rw [rho]
      simp only [h, if_false, hsum, Bool.false_eq_true]
      norm_num
  have hlb : -1 ≤ rho p := h1 ▸ le_max_left _ _
  have hub : rho p ≤ 1 := h1 ▸ max_le (by norm_num) (min_le_left _ _)
  refine ⟨h1, fun h => ?_, by nlinarith, fun e i => rfl⟩
  simp [rho, h]

/-- Nonnegativity of a quadratic with dominated linear coefficient, the
arithmetic core of the square-root model step bound. -/
theorem quadStep_nonneg (a c s u : ℝ) (ha : 0 ≤ a) (hc : 0 ≤ c) (hs : 0 ≤ s)
    (hu : 0 ≤ u) (h : s ^ 2 ≤ 4 * a * c) : 0 ≤ a * u ^ 2 - s * u + c := by
  have hsq : s ≤ 2 * Real.sqrt a * Real.sqrt c := by
    have h2 : (2 * Real.sqrt a * Real.sqrt c) ^ 2 = 4 * a * c := by
      rw [mul_pow, mul_pow, Real.sq_sqrt ha, Real.sq_sqrt hc]
      ring
    calc s = Real.sqrt (s ^ 2) := (Real.sqrt_sq hs).symm
      _ ≤ Real.sqrt ((2 * Real.sqrt a * Real.sqrt c) ^ 2) := by
          apply Real.sqrt_le_sqrt
          rw [h2]
          exact h
      _ = 2 * Real.sqrt a * Real.sqrt c := Real.sqrt_sq (by positivity)
  nlinarith [sq_nonneg (Real.sqrt a * u - Real.sqrt c), Real.sq_sqrt ha, Real.sq_sqrt hc,
    mul_nonneg (sub_nonneg.mpr hsq) hu]

/-- C2 (amended): under the square-root model the level fed to the square
root is floored, and whenever every coupled shock is bounded below by -B
and the parameters satisfy the discrete domination condition
sigma^2 dt B^2 <= 4 (1 - kappa dt)(kappa theta dt) with kappa dt in [0,1],
theta >= 0 and a nonnegative start, the raw underlying state is
nonnegative at every step.  (The counterexample shows the original claim,
quantified over every shock sequence, fails: one large negative Gaussian
shock drives the Euler step strictly negative.) -/
theorem C2_cir_nonneg (p : SynthesisParameters) (e : ℕ → StepRand) (B : ℝ)
    (hm : p.modelType = .INTEREST_RATE_CIR)
    (hθ : 0 ≤ p.thetaD) (hσ : 0 ≤ p.sigmaD) (hdt : 0 ≤ p.dt)
    (hκ0 : 0 ≤ p.kappaD * p.dt) (hκ1 : p.kappaD * p.dt ≤ 1) (hB : 0 ≤ B)
    (hshock : ∀ i, -B ≤ coupledShock (rho p) (e i).market (e i).idio)
    (hfeller : p.sigmaD ^ 2 * p.dt * B ^ 2 ≤
      4 * (1 - p.kappaD * p.dt) * (p.kappaD * p.thetaD * p.dt))
    (hinit : 0 ≤ p.initialValue) :
    ∀ i, 0 ≤ (pathState p e i).currentSpot := by
  intro i
  cases i with
  | zero => exact hinit
  | succ n =>
    simp only [pathState, stepState, stepSpot, hm]
    set ε := coupledShock (rho p) (e n).market (e n).idio with hε
    set L := max (pathState p e n).currentSpot 0.0001 with hLdef
    have hL0 : (0 : ℝ) ≤ L := le_trans (by norm_num) (le_max_right _ _)
    set u := Real.sqrt L with hu
    have hu0 : 0 ≤ u := Real.sqrt_nonneg L
    have hu2 : u ^ 2 = L := Real.sq_sqrt hL0
    have hquad : 0 ≤ (1 - p.kappaD * p.dt) * u ^ 2
        - (p.sigmaD * Real.sqrt p.dt * B) * u + p.kappaD * p.thetaD * p.dt := by
      apply quadStep_nonneg
      · linarith
      · nlinarith
      · exact mul_nonneg (mul_nonneg hσ (Real.sqrt_nonneg _)) hB
      · exact hu0
      · calc (p.sigmaD * Real.sqrt p.dt * B) ^ 2
            = p.sigmaD ^ 2 * (Real.sqrt p.dt) ^ 2 * B ^ 2 := by ring
          _ = p.sigmaD ^ 2 * p.dt * B ^ 2 := by rw [Real.sq_sqrt hdt]
          _ ≤ 4 * (1 - p.kappaD * p.dt) * (p.kappaD * p.thetaD * p.dt) := hfeller
    have hdiff : -(p.sigmaD * Real.sqrt p.dt * B) * u ≤ p.sigmaD * u * Real.sqrt p.dt * ε := by
      have hc0 : 0 ≤ p.sigmaD * u * Real.sqrt p.dt :=
        mul_nonneg (mul_nonneg hσ hu0) (Real.sqrt_nonneg _)
      have := mul_le_mul_of_nonneg_left (hshock n) hc0
      calc -(p.sigmaD * Real.sqrt p.dt * B) * u
          = p.sigmaD * u * Real.sqrt p.dt * (-B) := by ring
        _ ≤ p.sigmaD * u * Real.sqrt p.dt * ε := this
    nlinarith [hquad, hdiff, hu2]

/-- Witness for C2 at a concrete dominated-parameter run. -/
theorem C2_cir_nonneg_witness :
    0 ≤ pCIRpos.thetaD ∧ 0 ≤ (pathState pCIRpos noRand 1).currentSpot := by
  have hshock : ∀ i : ℕ,
      (-1 : ℝ) ≤ coupledShock (rho pCIRpos) (noRand i).market (noRand i).idio := by
    intro i
    have : coupledShock (rho pCIRpos) (noRand i).market (noRand i).idio = 0 := by
      simp [coupledShock, noRand]
    rw [this]
    norm_num
  have h := C2_cir_nonneg pCIRpos noRand 1 rfl
    (by norm_num [pCIRpos, mkParams, SynthesisParameters.thetaD])
    (by norm_num [pCIRpos, mkParams, SynthesisParameters.sigmaD])
    (by norm_num [pCIRpos, mkParams])
    (by norm_num [pCIRpos, mkParams, SynthesisParameters.kappaD])
    (by norm_num [pCIRpos, mkParams, SynthesisParameters.kappaD])
    (by norm_num)
    hshock
    (by norm_num [pCIRpos, mkParams, SynthesisParameters.kappaD,
        SynthesisParameters.thetaD, SynthesisParameters.sigmaD])
    (by norm_num [pCIRpos, mkParams])
  exact ⟨by norm_num [pCIRpos, mkParams, SynthesisParameters.thetaD], h 1⟩

/-- Counterexample for C2: a square-root run with theta = 0, kappa = 0,
sigma = 1, dt = 1 and a single idiosyncratic shock of -2 puts the raw
underlying state at -1, strictly negative, at step 1. -/
theorem C2_counterexample :
    0 ≤ pCIRneg.thetaD ∧
    ((generateSynthesizedData pCIRneg 0 eNegShock).data.get
      ⟨1, by rw [generate_length]; norm_num [pCIRneg, mkParams]⟩).underlyingValue < 0 := by
  constructor
  · norm_num [pCIRneg, mkParams, SynthesisParameters.thetaD]
  · rw [List.get_eq_getElem, generate_getElem, mkDataPoint_underlying]
    have hrho : rho pCIRneg = 0 := by
      simp [rho, pCIRneg, mkParams, SynthesisParameters.correlationsD,
        CorrelationFactors.empty, CorrelationFactors.hasAny]
    have heps : coupledShock (rho pCIRneg) (eNegShock 0).market (eNegShock 0).idio = -2 := by
      rw [hrho]
      simp [coupledShock, eNegShock]
    have hspot : (pathState pCIRneg eNegShock 1).currentSpot = -1 := by
      simp only [pathState, stepState, stepSpot,
        show pCIRneg.modelType = .INTEREST_RATE_CIR from rfl, heps]
      have hmax : pCIRneg.initialValue ⊔ (0.0001 : ℝ) = 1 := by
        have h1 : pCIRneg.initialValue = 1 := rfl
        rw [h1]
        exact max_eq_left (by norm_num)
      rw [hmax]
      norm_num [pCIRneg, mkParams, SynthesisParameters.sigmaD,
        SynthesisParameters.kappaD, SynthesisParameters.thetaD, Real.sqrt_one]
    rw [hspot]
    norm_num

/-- C3 (amended): the degenerate expiry branch is taken exactly when the
time to expiry is nonpositive; there the price is the intrinsic payoff
(max 0 of S - K for calls, K - S for puts), delta is the moneyness
indicator (1 or 0 for calls, 0 or -1 for puts) and the other four Greeks
are exactly zero.  At the floored epsilon 0.0001 the full formula runs
instead (see the counterexample). -/
theorem C3_expiry_branch (S K r sigma T : ℝ) (isCall : Bool) (hT : T ≤ 0) :
    (calculateBS S K T r sigma isCall).price =
      max 0 (if isCall then S - K else K - S) ∧
    (calculateBS S K T r sigma isCall).greeks.delta =
      (if isCall then (if K < S then 1 else 0) else (if S < K then -1 else 0)) ∧
    (calculateBS S K T r sigma isCall).greeks.gamma = 0 ∧
    (calculateBS S K T r sigma isCall).greeks.vega = 0 ∧
    (calculateBS S K T r sigma isCall).greeks.theta = 0 ∧
    (calculateBS S K T r sigma isCall).greeks.rho = 0 := by
  rw [calculateBS, if_pos hT]
  exact ⟨rfl, rfl, rfl, rfl, rfl, rfl⟩

/-- Witness for C3 at expiry with a call in the money. -/
theorem C3_expiry_branch_witness :
    (0 : ℝ) ≤ 0 ∧ (calculateBS 101 100 0 0.03 0.2 true).price = 1 ∧
    (calculateBS 101 100 0 0.03 0.2 true).greeks.delta = 1 ∧
    (calculateBS 101 100 0 0.03 0.2 true).greeks.gamma = 0 := by
  have h := C3_expiry_branch 101 100 0.03 0.2 0 true le_rfl
  refine ⟨le_rfl, ?_, ?_, h.2.2.1⟩
  · rw [h.1]; norm_num
  · rw [h.2.1]; norm_num

/-- Counterexample for C3: invoked at the floored epsilon T = 0.0001 (the
value the generator floors T at), the pricer does not return zero gamma:
gamma is strictly positive, so the claimed behaviour at the floored
epsilon fails. -/
theorem C3_counterexample :
    (calculateBS 100 100 0.0001 0.03 0.2 true).greeks.gamma ≠ 0 := by
  have hT : ¬((0.0001 : ℝ) ≤ 0) := by norm_num
  simp only [calculateBS, if_neg hT]
  have h2 : (0 : ℝ) < Real.sqrt 0.0001 := Real.sqrt_pos.mpr (by norm_num)
  have h1 : (0 : ℝ) < normalPDF ((Real.log (100 / 100) + (0.03 + 0.2 * 0.2 / 2.0) * 0.0001) /
      (0.2 * Real.sqrt 0.0001)) := by
    rw [normalPDF]
    positivity
  positivity

/-- C10: the volatility handed to the analytic pricer at every step is the
supplied implied volatility when present and nonzero, and otherwise the
realized volatility sigma (each defaulting to 0.2 when the field is
absent); in particular a supplied implied volatility of exactly zero is
replaced by sigma. -/
theorem C10_pricing_vol (p : SynthesisParameters) (startDay : ℕ) (e : ℕ → StepRand) :
    (pricingVol p =
      if p.impliedVol.getD 0.2 = 0 then p.sigma.getD 0.2 else p.impliedVol.getD 0.2) ∧
    (p.impliedVol = some 0 → pricingVol p = p.sigma.getD 0.2) ∧
    ∀ j (hj : j < (generateSynthesizedData p startDay e).data.length),
      (p.assetClass = .OPTION →
        ((generateSynthesizedData p startDay e).data.get ⟨j, hj⟩).value =
          (calculateBS (pathState p e j).currentSpot p.strikePriceD (Tmat p j)
            p.riskFreeRateD (pricingVol p) p.isCallD).price) ∧
      (p.assetClass = .SWAPTION →
        ((generateSynthesizedData p startDay e).data.get ⟨j, hj⟩).value =
          (calculateBlackSwaption (pathState p e j).currentSpot
            (if p.strikePriceD / 1000 = 0 then 0.03 else p.strikePriceD / 1000)
            (Tmat p j) p.riskFreeRateD (pricingVol p) p.isCallD).price) := by
  refine ⟨?_, ?_, ?_⟩
  · simp [pricingVol, SynthesisParameters.impliedVolD, SynthesisParameters.sigmaD]
  · intro h
    simp [pricingVol, SynthesisParameters.impliedVolD, SynthesisParameters.sigmaD, h]
  · intro j hj
    rw [List.get_eq_getElem, generate_getElem]
    constructor
    · intro hopt
      simp [mkDataPoint, hopt]
    · intro hsw
      simp [mkDataPoint, hsw]

/-- Witness for C10: a run whose caller supplies implied volatility zero
and sigma 0.37 prices with 0.37. -/
theorem C10_pricing_vol_witness :
    pOpt.impliedVol = some 0 ∧ pricingVol pOpt = 0.37 := by
  refine ⟨rfl, ?_⟩
  have h := (C10_pricing_vol pOpt 0 noRand).2.1 rfl
  rw [h]
  norm_num [pOpt, mkParams]

/-- C5 (amended): put-call parity holds exactly (hence within any small
tolerance such as 1e-6) for all positive S, K, T, sigma whenever neither
d1 nor d2 sits exactly at zero, because the CND approximation is exactly
symmetric at nonzero arguments.  On the knife edge d1 = 0 (or d2 = 0) the
residual is proportional to S (resp. the discounted strike), so no fixed
tolerance covers all inputs (see the counterexample). -/
theorem C5_parity (S K T r sigma : ℝ) (hS : 0 < S) (hK : 0 < K) (hT : 0 < T)
    (hσ : 0 < sigma)
    (h1 : Real.log (S / K) + (r + sigma * sigma / 2.0) * T ≠ 0)
    (h2 : Real.log (S / K) + (r - sigma * sigma / 2.0) * T ≠ 0) :
    (calculateBS S K T r sigma true).price - (calculateBS S K T r sigma false).price
      = S - K * Real.exp (-r * T) ∧
    |(calculateBS S K T r sigma true).price - (calculateBS S K T r sigma false).price
      - (S - K * Real.exp (-r * T))| ≤ 1e-6 := by
  have hd1ne : d1BS S K T r sigma ≠ 0 := by
    rw [d1BS]
    exact div_ne_zero h1 (by positivity)
  have hd2ne : d2BS S K T r sigma ≠ 0 := by
    rw [d2BS_eq S K T r sigma hT hσ]
    exact div_ne_zero h2 (by positivity)
  have hsum1 := CND_add_CND_neg hd1ne
  have hsum2 := CND_add_CND_neg hd2ne
  have hmain : (calculateBS S K T r sigma true).price
      - (calculateBS S K T r sigma false).price = S - K * Real.exp (-r * T) := by
    rw [calculateBS_call_price S K T r sigma hT, calculateBS_put_price S K T r sigma hT]
    linear_combination S * hsum1 - K * Real.exp (-r * T) * hsum2
  refine ⟨hmain, ?_⟩
  rw [hmain]
  norm_num

/-- Witness for C5 at S = K = 1, T = 1, r = 0, sigma = 1, where both
knife-edge exclusions hold. -/
theorem C5_parity_witness :
    (0 : ℝ) < 1 ∧
    (calculateBS 1 1 1 0 1 true).price - (calculateBS 1 1 1 0 1 false).price
      = 1 - 1 * Real.exp (-0 * 1) := by
  refine ⟨one_pos, ?_⟩
  exact (C5_parity 1 1 1 0 1 one_pos one_pos one_pos one_pos
    (by norm_num [Real.log_one]) (by norm_num [Real.log_one])).1

/-- Counterexample for C5: on the knife edge d1 = 0 the parity residual is
S times (2 CND 0 - 1), which is a fixed positive constant of order 1e-9;
at S = 1e12 (with K chosen to put d1 exactly at zero, T = 1, r = 0,
sigma the square root of two) the residual exceeds the 1e-6 tolerance. -/
theorem C5_counterexample :
    (0 : ℝ) < 1e12 ∧ (0 : ℝ) < 1e12 * Real.exp 1 ∧ (0 : ℝ) < Real.sqrt 2 ∧
    1e-6 < |(calculateBS 1e12 (1e12 * Real.exp 1) 1 0 (Real.sqrt 2) true).price
      - (calculateBS 1e12 (1e12 * Real.exp 1) 1 0 (Real.sqrt 2) false).price
      - ((1e12 : ℝ) - 1e12 * Real.exp 1 * Real.exp (-0 * 1))| := by
  have hE : (0 : ℝ) < Real.exp 1 := Real.exp_pos 1
  have hs2 : (0 : ℝ) < Real.sqrt 2 := Real.sqrt_pos.mpr (by norm_num)
  refine ⟨by norm_num, by positivity, hs2, ?_⟩
  have hT : (0 : ℝ) < 1 := one_pos
  -- d1 evaluates to zero at these inputs
  have hlog : Real.log ((1e12 : ℝ) / (1e12 * Real.exp 1)) = -1 := by
    have hratio : (1e12 : ℝ) / (1e12 * Real.exp 1) = (Real.exp 1)⁻¹ := by
      field_simp
    rw [hratio, Real.log_inv, Real.log_exp]
  have hss : Real.sqrt 2 * Real.sqrt 2 = 2 := Real.mul_self_sqrt (by norm_num)
  have hd1 : d1BS 1e12 (1e12 * Real.exp 1) 1 0 (Real.sqrt 2) = 0 := by
    rw [d1BS, hlog]
    rw [show (0 + Real.sqrt 2 * Real.sqrt 2 / 2.0) * 1 = 1 by rw [hss]; norm_num]
    norm_num
  have hd2 : d2BS 1e12 (1e12 * Real.exp 1) 1 0 (Real.sqrt 2) = -Real.sqrt 2 := by
    rw [d2BS, hd1, Real.sqrt_one]
    ring
  have hsum : CND (Real.sqrt 2) + CND (-Real.sqrt 2) = 1 :=
    CND_add_CND_neg (ne_of_gt hs2)
  have hprice : (calculateBS 1e12 (1e12 * Real.exp 1) 1 0 (Real.sqrt 2) true).price
      - (calculateBS 1e12 (1e12 * Real.exp 1) 1 0 (Real.sqrt 2) false).price
      - ((1e12 : ℝ) - 1e12 * Real.exp 1 * Real.exp (-0 * 1))
      = 1e12 * (2 * CND 0 - 1) := by
    rw [calculateBS_call_price _ _ _ _ _ hT, calculateBS_put_price _ _ _ _ _ hT,
      hd1, hd2, neg_neg, neg_zero]
    rw [show (0 : ℝ) * 1 = 0 by norm_num, Real.exp_zero]
    linear_combination (-(1e12 * Real.exp 1)) * hsum
  -- numeric lower bound on the residual constant 2 CND 0 - 1
  have hCND0 : CND 0 = cndPoly 0 := by
    rw [CND, if_neg (lt_irrefl 0)]
  have hpoly : cndPoly 0 = 1 - 1.253314136 / Real.sqrt (2 * Real.pi) := by
    rw [cndPoly]
    norm_num
    ring
  have hsqpi : (0 : ℝ) < Real.sqrt (2 * Real.pi) :=
    Real.sqrt_pos.mpr (by positivity)
  have hqlt : (2.5066282745 : ℝ) < Real.sqrt (2 * Real.pi) := by
    have hsq : (2.5066282745 : ℝ) ^ 2 < 2 * Real.pi := by
      norm_num
      linarith [Real.pi_gt_d20]
    calc (2.5066282745 : ℝ) = Real.sqrt (2.5066282745 ^ 2) :=
        (Real.sqrt_sq (by norm_num)).symm
      _ < Real.sqrt (2 * Real.pi) := Real.sqrt_lt_sqrt (by positivity) hsq
  have hkey : (8e-10 : ℝ) ≤ 2 * CND 0 - 1 := by
    rw [hCND0, hpoly]
    have e1 : 1.253314136 / Real.sqrt (2 * Real.pi) * Real.sqrt (2 * Real.pi)
        = 1.253314136 := div_mul_cancel₀ _ (ne_of_gt hsqpi)
    have hz0 : (0 : ℝ) ≤ 1.253314136 / Real.sqrt (2 * Real.pi) := by positivity
    nlinarith [mul_nonneg hz0 (sub_nonneg.mpr hqlt.le), e1]
  rw [hprice]
  have hpos : (0 : ℝ) < 1e12 * (2 * CND 0 - 1) := by nlinarith
  rw [abs_of_pos hpos]
  nlinarith

/-- C9: the coupled shock reduces exactly to the market shock at rho = 1,
to the idiosyncratic shock at rho = 0, and to the negated market shock at
rho = -1. -/
theorem C9_coupler_degenerate (zm zi : ℝ) :
    coupledShock 1 zm zi = zm ∧ coupledShock 0 zm zi = zi ∧
    coupledShock (-1) zm zi = -zm := by
  refine ⟨?_, ?_, ?_⟩ <;>
    norm_num [coupledShock, Real.sqrt_zero, Real.sqrt_one]

end QuantSynth
